import Mathlib

/-!
Verification of the agent orchestration loop of the ai-calendar-pro backend
(`backend/langgraph_agent.py`), shallowly embedded in Lean 4.

The embedding follows the Python source:
  * `Value` models the JSON-like values (strings, numbers, booleans, dicts)
    that flow through tool arguments and tool results; Python dicts are
    association lists with `List.lookup` as key membership/access.
  * `normalizeArgs` embeds the argument normalization of `mcp_calendar_tool`
    (lines 64-68): unwrap a dict-valued "kwargs" entry, otherwise keep the
    mapping as given.
  * `TOOL_NAME_MAP` / `mcpToolId` embed the alias table and
    `TOOL_NAME_MAP.get(tool_name, tool_name)` (lines 71-83).
  * `call_tool` embeds the MCP server dispatch of
    `backend/mcp_calendar_server.py` (lines 545-563): four known tool ids,
    everything else an HTTP 400 "Unknown tool: <tool>". The four handlers are
    an abstract parameter, since only the dispatch shape matters here.
  * `mcp_calendar_tool` embeds the proxy tool body (lines 89-120); the network
    is an explicit parameter (`NetResult`) covering `requests.RequestException`,
    non-2xx responses and non-JSON bodies.
  * `execute_tools`, `run_llm`, `should_continue`, `runFrom` and
    `chat_with_agent` embed the LangGraph nodes, the compiled graph and the
    `/chat` endpoint.  The `AgentState.messages` channel is declared with the
    `operator.add` reducer, so a node returning a list makes the new state
    `old ++ returned`; `applyDelta` embeds that reducer.
-/

/-- JSON-like values exchanged with tools (Python dict/str/int/bool). A dict is
an association list; Python dict keys are unique, lookups take the first hit. -/
inductive Value where
  | str : String → Value
  | num : Int → Value
  | bool : Bool → Value
  | dict : List (String × Value) → Value
deriving Repr

/-- An argument mapping: the `**kwargs` / `args` dicts of the source. -/
abbrev Args := List (String × Value)

/-- Argument normalization of `mcp_calendar_tool` (langgraph_agent.py:64-68):
`if "kwargs" in kwargs and isinstance(kwargs["kwargs"], dict): params = kwargs["kwargs"] else: params = dict(kwargs)`. -/
def normalizeArgs (kwargs : Args) : Args :=
  match kwargs.lookup "kwargs" with
  | some (Value.dict inner) => inner
  | _ => kwargs

/-- Whether normalization would unwrap: a "kwargs" key bound to a dict. -/
def isWrapped (kwargs : Args) : Bool :=
  match kwargs.lookup "kwargs" with
  | some (Value.dict _) => true
  | _ => false

/-- The alias table of `mcp_calendar_tool` (langgraph_agent.py:71-81): LLM-facing
names mapped to MCP server tool ids, plus the four MCP ids mapped to themselves. -/
def TOOL_NAME_MAP : List (String × String) :=
  [ ("create_calendar_event_tool", "calendar_create_event"),
    ("send_calendar_reminder_tool", "calendar_send_reminder"),
    ("sync_google_calendar_tool", "calendar_sync_google"),
    ("import_google_calendar_tool", "calendar_import_google"),
    ("calendar_create_event", "calendar_create_event"),
    ("calendar_send_reminder", "calendar_send_reminder"),
    ("calendar_sync_google", "calendar_sync_google"),
    ("calendar_import_google", "calendar_import_google") ]

/-- `mcp_tool_id = TOOL_NAME_MAP.get(tool_name, tool_name)` (langgraph_agent.py:83). -/
def mcpToolId (tool_name : String) : String :=
  (TOOL_NAME_MAP.lookup tool_name).getD tool_name

/-- Outcome of the MCP server's `/mcp/call` endpoint: a handler's JSON payload,
or a FastAPI `HTTPException(status_code, detail)`. -/
inductive ServerOutcome where
  | ok : Value → ServerOutcome
  | httpError : Nat → String → ServerOutcome
deriving Repr

/-- The four tool handlers behind `/mcp/call` (create/send/sync/import in
mcp_calendar_server.py). Their calendar behaviour is irrelevant to the loop, so
a handler environment maps a tool id and its parameters to the returned JSON. -/
abbrev Handlers := String → Args → Value

/-- The MCP server dispatch `call_tool` (mcp_calendar_server.py:545-563): four
known tool ids go to their handlers, any other id raises HTTP 400
"Unknown tool: <tool>". -/
def call_tool (handlers : Handlers) (tool : String) (params : Args) : ServerOutcome :=
  if tool = "calendar_create_event" then ServerOutcome.ok (handlers tool params)
  else if tool = "calendar_send_reminder" then ServerOutcome.ok (handlers tool params)
  else if tool = "calendar_sync_google" then ServerOutcome.ok (handlers tool params)
  else if tool = "calendar_import_google" then ServerOutcome.ok (handlers tool params)
  else ServerOutcome.httpError 400 ("Unknown tool: " ++ tool)

/-- What `requests.post(f"{MCP_SERVER_URL}/mcp/call", ...)` can yield inside
`mcp_calendar_tool`: a `requests.RequestException`, or a response carrying
`resp.ok`, `resp.status_code`, `resp.text` and the result of `resp.json()`
(`none` when the body is not JSON). -/
inductive NetResult where
  | reqException : String → NetResult
  | response : Bool → Nat → String → Option Value → NetResult

/-- A network environment: what the POST of `{tool, parameters}` returns. -/
abbrev Net := String → Args → NetResult

/-- The network that actually fronts this repository's MCP server: each request
reaches `call_tool`; a handler payload comes back as a 2xx JSON response and an
`HTTPException` as a non-ok response whose text carries the detail string (the
HTTP serialization of the error body is abstracted to its detail). -/
def serverNet (handlers : Handlers) : Net := fun tool params =>
  match call_tool handlers tool params with
  | ServerOutcome.ok payload => NetResult.response true 200 "" (some payload)
  | ServerOutcome.httpError status detail => NetResult.response false status detail none

/-- The body of `mcp_calendar_tool` (langgraph_agent.py:42-120): normalize the
keyword arguments, map the tool name, POST to the MCP server, and turn transport
errors, non-2xx statuses and non-JSON bodies into `{success: false, error: ...}`
dicts; a JSON body is returned as-is. -/
def mcp_calendar_tool (net : Net) (tool_name : String) (kwargs : Args) : Value :=
  let params := normalizeArgs kwargs
  let mcp_tool_id := mcpToolId tool_name
  match net mcp_tool_id params with
  | NetResult.reqException e =>
      Value.dict [("success", Value.bool false),
                  ("error", Value.str ("Error communicating with MCP Server: " ++ e))]
  | NetResult.response ok status text json =>
      if ok = false then
        Value.dict [("success", Value.bool false),
                    ("error", Value.str ("MCP server returned " ++ toString status ++ ": " ++ text))]
      else
        match json with
        | none =>
            Value.dict [("success", Value.bool false),
                        ("error", Value.str ("MCP server returned non-JSON response: " ++ text.take 200))]
        | some data => data

/-- `mcp_calendar_tool.invoke(args)` as called from `execute_tools`
(langgraph_agent.py:219): LangChain splits the args dict into the `tool_name`
parameter and the remaining keyword arguments, and raises a validation error
(modelled as `Except.error`) when `tool_name` is absent or not a string. -/
def invokeMcpTool (net : Net) (args : Args) : Except String Value :=
  match args.lookup "tool_name" with
  | some (Value.str tn) =>
      Except.ok (mcp_calendar_tool net tn (args.filter (fun p => ¬ p.1 = "tool_name")))
  | _ => Except.error "validation error for mcp_calendar_tool: tool_name"

/-- A LangChain tool call as normalized by `execute_tools`
(langgraph_agent.py:201-211): a name, an args dict and an id. -/
structure ToolCall where
  name : String
  args : Args
  id : String
deriving Repr

/-- A LangChain message: `HumanMessage`, `AIMessage` (with its `tool_calls`
list) or `ToolMessage` (content plus `tool_call_id`). -/
inductive Msg where
  | human : String → Msg
  | ai : String → List ToolCall → Msg
  | toolMsg : Value → String → Msg
deriving Repr

/-- `getattr(message, "tool_calls", None)`: only AI messages carry tool calls;
a missing attribute or an empty list are both falsy in the source. -/
def toolCallsOf : Msg → List ToolCall
  | Msg.ai _ tcs => tcs
  | _ => []

/-- The executor behind `mcp_calendar_tool.invoke(args)` as seen from
`execute_tools`: it either returns the tool's dict or raises (`Except.error`). -/
abbrev Exec := Args → Except String Value

/-- The per-call dispatch of `execute_tools` (langgraph_agent.py:216-230): a
call named `mcp_calendar_tool` is invoked with any exception caught and wrapped;
any other name yields the unknown-tool failure dict. -/
def runTool (exec : Exec) (c : ToolCall) : Value :=
  if c.name = "mcp_calendar_tool" then
    match exec c.args with
    | Except.ok output => output
    | Except.error e =>
        Value.dict [("success", Value.bool false),
                    ("error", Value.str ("Error executing mcp_calendar_tool: " ++ e))]
  else
    Value.dict [("success", Value.bool false),
                ("error", Value.str ("Unknown tool '" ++ c.name ++ "' requested."))]

/-- The `execute_tools` node (langgraph_agent.py:181-237): its return value for
the `messages` channel. With no tool calls on the last message it returns the
existing messages; otherwise it returns `messages + tool_messages`, one
`ToolMessage` per call, in call order. (`messages[-1]` presupposes a non-empty
state; every state the graph reaches is seeded non-empty.) -/
def execute_tools (exec : Exec) (messages : List Msg) : List Msg :=
  match messages.getLast? with
  | none => messages
  | some last =>
    match toolCallsOf last with
    | [] => messages
    | calls => messages ++ calls.map (fun c => Msg.toolMsg (runTool exec c) c.id)

/-- The LLM Decision Provider: `(prompt | llm_with_tools).invoke` producing the
next AI message's content and tool calls, or raising (`Except.error`, e.g. the
Ollama server unreachable at call time). -/
abbrev Provider := List Msg → Except String (String × List ToolCall)

/-- The `run_llm` node (langgraph_agent.py:163-178): with no LLM bound it
returns the canned unavailable `AIMessage`; otherwise it returns the provider's
message as a one-element delta for the `messages` channel. -/
def run_llm (avail : Bool) (provider : Provider) (messages : List Msg) :
    Except String (List Msg) :=
  if avail = false then
    Except.ok
      [Msg.ai "The AI agent backend is currently unavailable. Please check the Ollama server." []]
  else
    (provider messages).map (fun d => [Msg.ai d.1 d.2])

/-- The `operator.add` reducer on `AgentState.messages`
(langgraph_agent.py:32-34): a node returning `delta` makes the new channel
value `state ++ delta`. -/
def applyDelta (state delta : List Msg) : List Msg :=
  state ++ delta

/-- The `should_continue` router (langgraph_agent.py:240-251): tool calls on the
last message continue to the action node, otherwise the graph ends. -/
def should_continue (messages : List Msg) : String :=
  match messages.getLast? with
  | some last => if (toolCallsOf last).isEmpty then "end_graph" else "continue_to_tools"
  | none => "end_graph"

/-- The two nodes of the compiled workflow (langgraph_agent.py:258-275). -/
inductive Node where
  | agent : Node
  | action : Node
deriving Repr

/-- Outcome of `graph.invoke`: the final state, an exception raised by the
provider inside `run_llm`, or LangGraph's `GraphRecursionError` when the
recursion limit is exhausted before a stop condition. -/
inductive RunOutcome where
  | finished : List Msg → RunOutcome
  | providerError : String → RunOutcome
  | recursionError : RunOutcome
deriving Repr

/-- One execution of the compiled graph from a given node and state, with
`fuel` remaining supersteps (LangGraph's `recursion_limit`, default 25; its
exact superstep accounting is abstracted to "one unit per node run"). Agent:
run `run_llm`, fold its delta into the state via the reducer, route with
`should_continue`. Action: fold `execute_tools`'s return into the state and go
back to the agent (the unconditional `action -> agent` edge). -/
def runFrom (avail : Bool) (provider : Provider) (exec : Exec) :
    Nat → Node → List Msg → RunOutcome
  | 0, _, _ => RunOutcome.recursionError
  | Nat.succ n, Node.agent, state =>
    match run_llm avail provider state with
    | Except.error e => RunOutcome.providerError e
    | Except.ok delta =>
      let state2 := applyDelta state delta
      if should_continue state2 = "continue_to_tools" then
        runFrom avail provider exec n Node.action state2
      else
        RunOutcome.finished state2
  | Nat.succ n, Node.action, state =>
      runFrom avail provider exec n Node.agent (applyDelta state (execute_tools exec state))

/-- `graph.invoke({"messages": initial})`: run from the entry point `agent`. -/
def graphInvoke (avail : Bool) (provider : Provider) (exec : Exec)
    (recursionLimit : Nat) (initial : List Msg) : RunOutcome :=
  runFrom avail provider exec recursionLimit Node.agent initial

/-- `str(final_message)` for the non-AI fallback of the chat endpoint
(langgraph_agent.py:329); the exact Python rendering is immaterial (the branch
is unreachable: a finished run always ends on an AI message). -/
def strOfMsg : Msg → String
  | Msg.human c => c
  | Msg.ai c _ => c
  | Msg.toolMsg _ id => id

/-- Result of the `/chat` endpoint: a JSON response or an `HTTPException`. -/
inductive ChatResult where
  | ok : String → ChatResult
  | httpError : Nat → String → ChatResult
deriving Repr

/-- The `/chat` endpoint `chat_with_agent` (langgraph_agent.py:304-335): 503
when no LLM is bound; otherwise run the graph on the single seed
`HumanMessage`, answer with the final AI message's content, and convert any
exception escaping `graph.invoke` into an HTTP 500 "AI Agent Error". The
`GraphRecursionError` text follows LangGraph's wording; only its shape as a
500-wrapped error matters below. -/
def chat_with_agent (avail : Bool) (provider : Provider) (exec : Exec)
    (recursionLimit : Nat) (message : String) : ChatResult :=
  if avail = false then
    ChatResult.httpError 503 "LLM backend is unavailable. Please ensure Ollama is running."
  else
    match graphInvoke avail provider exec recursionLimit [Msg.human message] with
    | RunOutcome.finished msgs =>
      match msgs.getLast? with
      | some (Msg.ai content _) => ChatResult.ok content
      | some m => ChatResult.ok (strOfMsg m)
      | none => ChatResult.ok ""
    | RunOutcome.providerError e => ChatResult.httpError 500 ("AI Agent Error: " ++ e)
    | RunOutcome.recursionError =>
        ChatResult.httpError 500
          ("AI Agent Error: Recursion limit of " ++ toString recursionLimit ++
            " reached without hitting a stop condition.")

/-- One full round of the loop as seen between two provider decisions: the
agent superstep appends the decided AI message, the action superstep folds
`execute_tools`'s return through the reducer. (On a provider error the run
aborts; the trace is frozen there.) -/
def nextRound (provider : Provider) (exec : Exec) (s : List Msg) : List Msg :=
  match provider s with
  | Except.ok d =>
      applyDelta (applyDelta s [Msg.ai d.1 d.2])
        (execute_tools exec (applyDelta s [Msg.ai d.1 d.2]))
  | Except.error _ => s

/-- The state seen by the provider before its (i+1)-th decision, assuming every
decision so far requested tools. Used to phrase "the provider eventually
returns an empty tool_requests list". -/
def traceState (provider : Provider) (exec : Exec) (seed : List Msg) : Nat → List Msg
  | 0 => seed
  | Nat.succ i => nextRound provider exec (traceState provider exec seed i)

/-- An executor whose handler always succeeds with `{success: true}`. -/
def execOk : Exec := fun _ => Except.ok (Value.dict [("success", Value.bool true)])

/-- A first concrete tool call, request id "id1". -/
def tc1 : ToolCall :=
  { name := "mcp_calendar_tool",
    args := [("tool_name", Value.str "calendar_create_event")], id := "id1" }

/-- A second concrete tool call, request id "id2". -/
def tc2 : ToolCall :=
  { name := "mcp_calendar_tool",
    args := [("tool_name", Value.str "calendar_send_reminder")], id := "id2" }

/-- Whether a message is an AI (assistant) message. -/
def Msg.isAI : Msg → Bool
  | Msg.ai _ _ => true
  | _ => false

/-- Number of assistant messages in a state (used to script providers). -/
def countAI (msgs : List Msg) : Nat :=
  (msgs.filter Msg.isAI).length

/-- Whether a message is a `ToolMessage` (a tool-result turn). -/
def isToolResult : Msg → Bool
  | Msg.toolMsg _ _ => true
  | _ => false

/-- The `tool_call_id` of a `ToolMessage` (and "" on other messages). -/
def requestIdOf : Msg → String
  | Msg.toolMsg _ id => id
  | _ => ""

/-- A scripted provider: one tool call on its first decision, one on its
second, then a plain answer. Decisions are keyed on the number of assistant
messages it has been shown. -/
def twoRoundProvider : Provider := fun msgs =>
  if countAI msgs = 0 then Except.ok ("", [tc1])
  else if countAI msgs = 2 then Except.ok ("", [tc2])
  else Except.ok ("done", [])

/-- A provider that requests a tool on every decision, forever. -/
def alwaysToolProvider : Provider := fun _ => Except.ok ("looping", [tc1])

/-- A provider that answers immediately with no tool calls. -/
def answerProvider : Provider := fun _ => Except.ok ("done", [])

example : normalizeArgs [("a", Value.num 1)] = [("a", Value.num 1)] := rfl
example : normalizeArgs [("kwargs", Value.dict [("a", Value.num 1)])] = [("a", Value.num 1)] := rfl
example : normalizeArgs [("kwargs", Value.dict []), ("x", Value.num 1)] = [] := rfl
example : Value.dict [] ≠ Value.dict [("a", Value.num 1)] := by simp
example : mcpToolId "sync_google_calendar_tool" = "calendar_sync_google" := rfl
example : mcpToolId "nonsense" = "nonsense" := rfl
example :
    mcp_calendar_tool (serverNet fun _ _ => Value.dict []) "nonsense" [] =
      Value.dict [("success", Value.bool false),
                  ("error", Value.str "MCP server returned 400: Unknown tool: nonsense")] := rfl


/-! Helper lemmas about the graph's steps. -/

/-- `should_continue` on a state ending in an AI message routes on that
message's tool calls. -/
theorem should_continue_concat (s : List Msg) (c : String) (tcs : List ToolCall) :
    should_continue (s ++ [Msg.ai c tcs]) =
      if tcs.isEmpty then "end_graph" else "continue_to_tools" := by
  simp [should_continue, toolCallsOf]

/-- A successful `run_llm` delta is a single AI message. -/
theorem run_llm_ok_shape (avail : Bool) (provider : Provider) (s delta : List Msg)
    (h : run_llm avail provider s = Except.ok delta) :
    ∃ c tcs, delta = [Msg.ai c tcs] := by
  by_cases ha : avail = false
  · subst ha
    simp [run_llm] at h
    exact ⟨_, _, h.symm⟩
  · simp [run_llm, ha] at h
    match hp : provider s with
    | Except.ok d => rw [hp] at h; simp [Except.map] at h; exact ⟨d.1, d.2, h.symm⟩
    | Except.error e => rw [hp] at h; simp [Except.map] at h

/-- The action node's superstep: fold `execute_tools` into the state and go
back to the agent node. -/
theorem runFrom_action (avail : Bool) (provider : Provider) (exec : Exec)
    (n : Nat) (state : List Msg) :
    runFrom avail provider exec (n + 1) Node.action state =
      runFrom avail provider exec n Node.agent
        (applyDelta state (execute_tools exec state)) := rfl

/-- The agent node's superstep when the provider answers: append the AI
message and route on its tool calls. -/
theorem runFrom_agent_ok (provider : Provider) (exec : Exec) (n : Nat)
    (state : List Msg) (c : String) (tcs : List ToolCall)
    (h : provider state = Except.ok (c, tcs)) :
    runFrom true provider exec (n + 1) Node.agent state =
      if tcs.isEmpty then RunOutcome.finished (state ++ [Msg.ai c tcs])
      else runFrom true provider exec n Node.action (state ++ [Msg.ai c tcs]) := by
  simp only [runFrom, run_llm, if_neg (by simp : ¬ (true = false)), h, Except.map,
    applyDelta, should_continue_concat]
  cases htcs : tcs.isEmpty <;> simp

/-- The agent node's superstep when the provider raises. -/
theorem runFrom_agent_error (provider : Provider) (exec : Exec) (n : Nat)
    (state : List Msg) (e : String) (h : provider state = Except.error e) :
    runFrom true provider exec (n + 1) Node.agent state = RunOutcome.providerError e := by
  simp only [runFrom, run_llm, if_neg (by simp : ¬ (true = false)), h, Except.map]

/-- Shifting the decision trace by one round. -/
theorem traceState_shift (provider : Provider) (exec : Exec) (seed : List Msg) (j : Nat) :
    traceState provider exec (nextRound provider exec seed) j =
      traceState provider exec seed (j + 1) := by
  induction j with
  | zero => rfl
  | succ j ih => simp only [traceState, ih]

/-- A finished run ends on an AI message with no tool calls (the only way
`should_continue` routes to `END`). -/
theorem runFrom_finished_last (avail : Bool) (provider : Provider) (exec : Exec) :
    ∀ (limit : Nat) (node : Node) (s f : List Msg),
      runFrom avail provider exec limit node s = RunOutcome.finished f →
      ∃ content, f.getLast? = some (Msg.ai content []) := by
  intro limit
  induction limit with
  | zero => intro node s f h; cases node <;> exact absurd h (by simp [runFrom])
  | succ n ih =>
    intro node s f h
    cases node with
    | action => exact ih Node.agent _ f h
    | agent =>
      revert h
      simp only [runFrom]
      match hm : run_llm avail provider s with
      | Except.error e => intro h; exact absurd h (by simp)
      | Except.ok delta =>
        obtain ⟨c, tcs, rfl⟩ := run_llm_ok_shape avail provider s delta hm
        simp only [applyDelta, should_continue_concat]
        cases htcs : tcs.isEmpty with
        | true =>
          simp only [if_pos rfl, if_neg (by simp : ¬ ("end_graph" = "continue_to_tools"))]
          intro h
          cases h
          have : tcs = [] := by simpa using htcs
          subst this
          exact ⟨c, by simp⟩
        | false =>
          simp only [if_neg (by simp : ¬ (false = true)), if_pos rfl]
          intro h
          exact ih Node.action _ f h

/-- Every run only ever appends: a finished state extends the state the run
was started from. -/
theorem runFrom_finished_extends (avail : Bool) (provider : Provider) (exec : Exec) :
    ∀ (limit : Nat) (node : Node) (s f : List Msg),
      runFrom avail provider exec limit node s = RunOutcome.finished f →
      ∃ t, s ++ t = f := by
  intro limit
  induction limit with
  | zero => intro node s f h; cases node <;> exact absurd h (by simp [runFrom])
  | succ n ih =>
    intro node s f h
    cases node with
    | action =>
      obtain ⟨t, ht⟩ := ih Node.agent _ f h
      exact ⟨execute_tools exec s ++ t, by simpa [applyDelta] using ht⟩
    | agent =>
      revert h
      simp only [runFrom]
      match hm : run_llm avail provider s with
      | Except.error e => intro h; exact absurd h (by simp)
      | Except.ok delta =>
        simp only [applyDelta]
        by_cases hc : should_continue (s ++ delta) = "continue_to_tools"
        · simp only [if_pos hc]
          intro h
          obtain ⟨t, ht⟩ := ih Node.action _ f h
          exact ⟨delta ++ t, by simpa using ht⟩
        · simp only [if_neg hc]
          intro h
          cases h
          exact ⟨delta, rfl⟩

/-- A mapping with no dict-valued "kwargs" entry passes through normalization
unchanged. -/
theorem normalizeArgs_of_not_wrapped (m : Args) (h : isWrapped m = false) :
    normalizeArgs m = m := by
  unfold isWrapped at h
  cases hm : m.lookup "kwargs" with
  | none => simp [normalizeArgs, hm]
  | some v =>
    cases v with
    | str s => simp [normalizeArgs, hm]
    | num n => simp [normalizeArgs, hm]
    | bool b => simp [normalizeArgs, hm]
    | dict inner => rw [hm] at h; simp at h

/-- C6: the claim fails on the code. The mapping
`{"kwargs": {}, "x": 1}` is not shaped as a single-key wrapper, yet
normalization does not return it unchanged: it unwraps the dict-valued
"kwargs" entry and discards the sibling. And on the single-key wrapper
`{"kwargs": {"kwargs": {"a": 1}}}` (one of the claim's shapes) normalization
is not idempotent: a second application unwraps again. -/
theorem C6_counterexample :
    (normalizeArgs [("kwargs", Value.dict []), ("x", Value.num 1)] = [] ∧
      [("kwargs", Value.dict []), ("x", Value.num 1)] ≠ ([] : Args)) ∧
    normalizeArgs
        (normalizeArgs [("kwargs", Value.dict [("kwargs", Value.dict [("a", Value.num 1)])])]) ≠
      normalizeArgs [("kwargs", Value.dict [("kwargs", Value.dict [("a", Value.num 1)])])] := by
  refine ⟨⟨rfl, by simp⟩, ?_⟩
  show [("a", Value.num 1)] ≠ [("kwargs", Value.dict [("a", Value.num 1)])]
  simp

/-- C6 (amended): normalization is the identity on any mapping with no
dict-valued "kwargs" entry; it unwraps the single-key wrapper
`{"kwargs": inner}` to `inner`; and it is idempotent on such flat mappings and
on wrappers whose inner mapping has no dict-valued "kwargs" entry of its own. -/
theorem C6_normalize_idempotent (m inner : Args) :
    (isWrapped m = false → normalizeArgs m = m) ∧
    normalizeArgs [("kwargs", Value.dict inner)] = inner ∧
    (isWrapped m = false → normalizeArgs (normalizeArgs m) = normalizeArgs m) ∧
    (isWrapped inner = false →
      normalizeArgs (normalizeArgs [("kwargs", Value.dict inner)]) =
        normalizeArgs [("kwargs", Value.dict inner)]) := by
  refine ⟨normalizeArgs_of_not_wrapped m, rfl, fun h => ?_, fun h => ?_⟩
  · rw [normalizeArgs_of_not_wrapped m h]
    exact normalizeArgs_of_not_wrapped m h
  · have hw : normalizeArgs [("kwargs", Value.dict inner)] = inner := rfl
    rw [hw]
    exact normalizeArgs_of_not_wrapped inner h

/-- C6 witness: idempotence at the flat mapping `{"a": 1}`. -/
theorem C6_normalize_idempotent_witness :
    normalizeArgs (normalizeArgs [("a", Value.num 1)]) = normalizeArgs [("a", Value.num 1)] :=
  (C6_normalize_idempotent [("a", Value.num 1)] []).2.2.1 rfl

/-- C9: normalization unwraps exactly the literal key "kwargs": whenever the
mapping binds "kwargs" to a dict the inner mapping becomes the result (all
sibling keys discarded); a single wrapper under any other key is left alone;
and the inner mapping is returned verbatim, so a "kwargs" key inside it is
kept as an ordinary argument (unwrapping is one level deep). -/
theorem C9_unwrap_exact_kwargs :
    (∀ (m inner : Args), m.lookup "kwargs" = some (Value.dict inner) →
      normalizeArgs m = inner) ∧
    (∀ (k : String) (inner : Args), k ≠ "kwargs" →
      normalizeArgs [(k, Value.dict inner)] = [(k, Value.dict inner)]) ∧
    (∀ inner : Args, normalizeArgs [("kwargs", Value.dict inner)] = inner) := by
  refine ⟨fun m inner h => by simp [normalizeArgs, h], fun k inner h => ?_, fun inner => rfl⟩
  have hb : ("kwargs" == k) = false := by
    rw [beq_eq_false_iff_ne]
    exact Ne.symm h
  simp [normalizeArgs, List.lookup, hb]

/-- C9 witness: sibling keys are discarded and the unwrapped inner mapping's
own "kwargs" entry is kept; a wrapper under the key "other" is not unwrapped. -/
theorem C9_unwrap_exact_kwargs_witness :
    normalizeArgs
        [("kwargs", Value.dict [("kwargs", Value.dict [("a", Value.num 1)])]),
         ("sib", Value.num 2)] =
      [("kwargs", Value.dict [("a", Value.num 1)])] ∧
    normalizeArgs [("other", Value.dict [("a", Value.num 1)])] =
      [("other", Value.dict [("a", Value.num 1)])] :=
  ⟨C9_unwrap_exact_kwargs.1 _ _ rfl,
   C9_unwrap_exact_kwargs.2.1 "other" [("a", Value.num 1)] (by decide)⟩

/-- C4: the claim's error text is not what the code produces. For the
unresolvable tool call named "foo_tool" the executor's result carries the
error "Unknown tool 'foo_tool' requested." — not "Unknown tool 'foo_tool'". -/
theorem C4_counterexample :
    runTool execOk { name := "foo_tool", args := [], id := "1" } =
      Value.dict [("success", Value.bool false),
                  ("error", Value.str "Unknown tool 'foo_tool' requested.")] ∧
    Value.str "Unknown tool 'foo_tool' requested." ≠ Value.str "Unknown tool 'foo_tool'" :=
  ⟨rfl, by simp⟩

/-- C4 (amended): a tool call whose name is not `mcp_calendar_tool` yields
`{success: false, error: "Unknown tool '<name>' requested."}`; that result is
appended to the conversation as a `ToolMessage` carrying the request's id, and
the action node then hands control straight back to the agent (DECIDING) node —
the run is not terminated. -/
theorem C4_unknown_tool_recovered (exec : Exec) (c : ToolCall) (prior : List Msg)
    (content : String) (avail : Bool) (provider : Provider) (n : Nat)
    (h : c.name ≠ "mcp_calendar_tool") :
    runTool exec c =
      Value.dict [("success", Value.bool false),
                  ("error", Value.str ("Unknown tool '" ++ c.name ++ "' requested."))] ∧
    execute_tools exec (prior ++ [Msg.ai content [c]]) =
      (prior ++ [Msg.ai content [c]]) ++
        [Msg.toolMsg
          (Value.dict [("success", Value.bool false),
                       ("error", Value.str ("Unknown tool '" ++ c.name ++ "' requested."))])
          c.id] ∧
    runFrom avail provider exec (n + 1) Node.action (prior ++ [Msg.ai content [c]]) =
      runFrom avail provider exec n Node.agent
        (applyDelta (prior ++ [Msg.ai content [c]])
          (execute_tools exec (prior ++ [Msg.ai content [c]]))) := by
  have hl : (prior ++ [Msg.ai content [c]]).getLast? = some (Msg.ai content [c]) := by simp
  exact ⟨by simp [runTool, h],
         by simp [execute_tools, hl, toolCallsOf, runTool, h],
         runFrom_action avail provider exec n _⟩

/-- C4 witness: the unknown-tool result at the concrete call "bad_tool". -/
theorem C4_unknown_tool_recovered_witness :
    runTool execOk { name := "bad_tool", args := [], id := "9" } =
      Value.dict [("success", Value.bool false),
                  ("error", Value.str "Unknown tool 'bad_tool' requested.")] :=
  (C4_unknown_tool_recovered execOk { name := "bad_tool", args := [], id := "9" }
    [] "" true answerProvider 0 (by decide)).1

/-- An executor whose handler raises (`Exception`) on every call. -/
def execFail : Exec := fun _ => Except.error "boom"

/-- A network on which every POST raises `requests.RequestException`. -/
def netDown : Net := fun _ _ => NetResult.reqException "down"

/-- C5: a handler exception never escapes the tool-execution step. An
exception from `mcp_calendar_tool.invoke` is caught and wrapped as
`{success: false, error: "Error executing mcp_calendar_tool: <e>"}`, which is
appended to the conversation as a `ToolMessage`; inside the tool itself a
`requests.RequestException` is likewise converted to a failure dict. (The
embedding's executor is a total function into messages — there is no
exceptional exit at all.) -/
theorem C5_handler_exception_contained (exec : Exec) (c : ToolCall) (e : String)
    (prior : List Msg) (content : String) (net : Net) (tool_name : String)
    (kwargs : Args) (msg : String)
    (hname : c.name = "mcp_calendar_tool") (herr : exec c.args = Except.error e)
    (hnet : net (mcpToolId tool_name) (normalizeArgs kwargs) = NetResult.reqException msg) :
    runTool exec c =
      Value.dict [("success", Value.bool false),
                  ("error", Value.str ("Error executing mcp_calendar_tool: " ++ e))] ∧
    execute_tools exec (prior ++ [Msg.ai content [c]]) =
      (prior ++ [Msg.ai content [c]]) ++
        [Msg.toolMsg
          (Value.dict [("success", Value.bool false),
                       ("error", Value.str ("Error executing mcp_calendar_tool: " ++ e))])
          c.id] ∧
    mcp_calendar_tool net tool_name kwargs =
      Value.dict [("success", Value.bool false),
                  ("error", Value.str ("Error communicating with MCP Server: " ++ msg))] := by
  have hl : (prior ++ [Msg.ai content [c]]).getLast? = some (Msg.ai content [c]) := by simp
  refine ⟨by simp [runTool, hname, herr], ?_, ?_⟩
  · simp [execute_tools, hl, toolCallsOf, runTool, hname, herr]
  · simp only [mcp_calendar_tool, hnet]

/-- C5 witness: a raising handler and a dead network at concrete inputs. -/
theorem C5_handler_exception_contained_witness :
    runTool execFail { name := "mcp_calendar_tool", args := [], id := "7" } =
      Value.dict [("success", Value.bool false),
                  ("error", Value.str "Error executing mcp_calendar_tool: boom")] ∧
    mcp_calendar_tool netDown "t" [] =
      Value.dict [("success", Value.bool false),
                  ("error", Value.str "Error communicating with MCP Server: down")] :=
  ⟨(C5_handler_exception_contained execFail
      { name := "mcp_calendar_tool", args := [], id := "7" } "boom" [] "" netDown "t" [] "down"
      rfl rfl rfl).1,
   (C5_handler_exception_contained execFail
      { name := "mcp_calendar_tool", args := [], id := "7" } "boom" [] "" netDown "t" [] "down"
      rfl rfl rfl).2.2⟩

/-- C8: the duplication introduced by the `operator.add` reducer. On a state of
n messages ending in an AI message with k tool calls, the action node returns
the whole prior sequence plus the k tool results, the reducer concatenates that
onto the stored state, and the new state is `s ++ s ++ results` — 2n + k
messages, a full duplicate of the history before the results. -/
theorem C8_action_duplicates_history (exec : Exec) (prior : List Msg)
    (content : String) (tcs : List ToolCall) (h : tcs ≠ []) :
    applyDelta (prior ++ [Msg.ai content tcs])
        (execute_tools exec (prior ++ [Msg.ai content tcs])) =
      ((prior ++ [Msg.ai content tcs]) ++ (prior ++ [Msg.ai content tcs])) ++
        tcs.map (fun c => Msg.toolMsg (runTool exec c) c.id) ∧
    (applyDelta (prior ++ [Msg.ai content tcs])
        (execute_tools exec (prior ++ [Msg.ai content tcs]))).length =
      2 * (prior ++ [Msg.ai content tcs]).length + tcs.length := by
  have hl : (prior ++ [Msg.ai content tcs]).getLast? = some (Msg.ai content tcs) := by simp
  cases tcs with
  | nil => exact absurd rfl h
  | cons hd tl =>
    constructor
    · simp [applyDelta, execute_tools, hl, toolCallsOf]
    · simp [applyDelta, execute_tools, hl, toolCallsOf]
      omega

/-- C8 witness: with one prior message and one tool call, 2·2 + 1 = 5 messages. -/
theorem C8_action_duplicates_history_witness :
    (applyDelta ([Msg.human "u"] ++ [Msg.ai "" [tc1]])
        (execute_tools execOk ([Msg.human "u"] ++ [Msg.ai "" [tc1]]))).length = 5 :=
  (C8_action_duplicates_history execOk [Msg.human "u"] "" [tc1] (by simp)).2

/-- The full final transcript of a `/chat` run of `twoRoundProvider`: tool
request id1 on the first decision, id2 on the second, then a plain answer.
Each action round appends a duplicate of the whole prior history before its
tool result. -/
def twoRoundTranscript : List Msg :=
  [Msg.human "u", Msg.ai "" [tc1], Msg.human "u", Msg.ai "" [tc1],
   Msg.toolMsg (Value.dict [("success", Value.bool true)]) "id1", Msg.ai "" [tc2],
   Msg.human "u", Msg.ai "" [tc1], Msg.human "u", Msg.ai "" [tc1],
   Msg.toolMsg (Value.dict [("success", Value.bool true)]) "id1", Msg.ai "" [tc2],
   Msg.toolMsg (Value.dict [("success", Value.bool true)]) "id2", Msg.ai "done" []]

/-- C2: evaluation of the code at the failing input. A run whose provider
issues two tool requests over two rounds (ids "id1" and "id2", so 2 requests in
the whole run) finishes with a transcript holding 3 tool-result turns: the
`operator.add` reducer re-appends the first round's result. The second
assistant turn sits at index 5 and requests only "id2", yet among the results
appended after it is a turn with request id "id1" — an orphaned result for
that turn, contradicting "exactly k results, each matching that same turn". -/
theorem C2_duplicated_results :
    graphInvoke true twoRoundProvider execOk 25 [Msg.human "u"] =
      RunOutcome.finished twoRoundTranscript ∧
    (twoRoundTranscript.filter isToolResult).length = 3 ∧
    twoRoundTranscript[5]? = some (Msg.ai "" [tc2]) ∧
    tc2.id = "id2" ∧
    ((twoRoundTranscript.drop 6).filter isToolResult).map requestIdOf = ["id1", "id2"] ∧
    "id1" ≠ "id2" :=
  ⟨rfl, rfl, rfl, rfl, rfl, by decide⟩

/-- C3: the loop is append-only. The reducer makes every node's update
`state ++ delta` (so the prior sequence is a prefix of the new one and no
existing turn is modified or deleted), the action node's update in particular,
and consequently any finished run's transcript extends the state the run
started from. -/
theorem C3_append_only :
    (∀ (state delta : List Msg), ∃ t, state ++ t = applyDelta state delta) ∧
    (∀ (exec : Exec) (state : List Msg),
      ∃ t, state ++ t = applyDelta state (execute_tools exec state)) ∧
    (∀ (avail : Bool) (provider : Provider) (exec : Exec) (limit : Nat) (node : Node)
        (s f : List Msg),
      runFrom avail provider exec limit node s = RunOutcome.finished f → ∃ t, s ++ t = f) :=
  ⟨fun _ delta => ⟨delta, rfl⟩,
   fun exec state => ⟨execute_tools exec state, rfl⟩,
   fun avail provider exec limit node s f h =>
     runFrom_finished_extends avail provider exec limit node s f h⟩

/-- C3 witness: a concrete finished run extends its seed. -/
theorem C3_append_only_witness :
    ∃ t, [Msg.human "x"] ++ t = [Msg.human "x", Msg.ai "done" []] :=
  C3_append_only.2.2 true answerProvider execOk 25 Node.agent [Msg.human "x"]
    [Msg.human "x", Msg.ai "done" []] rfl

/-- C7: outcomes of the `/chat` endpoint. With no LLM bound the caller gets the
503 service-unavailable error before the loop starts; a provider exception
during the run is surfaced as the explicit 500 "AI Agent Error"; exhaustion of
the recursion limit likewise; and a finished run answers with the content of
the final assistant message, which carries no tool calls. Every case is a JSON
answer or an explicit HTTP error — no collaborator exception escapes. -/
theorem C7_chat_outcomes (provider : Provider) (exec : Exec) (limit : Nat) (message : String) :
    chat_with_agent false provider exec limit message =
      ChatResult.httpError 503 "LLM backend is unavailable. Please ensure Ollama is running." ∧
    (∀ e, graphInvoke true provider exec limit [Msg.human message] = RunOutcome.providerError e →
      chat_with_agent true provider exec limit message =
        ChatResult.httpError 500 ("AI Agent Error: " ++ e)) ∧
    (graphInvoke true provider exec limit [Msg.human message] = RunOutcome.recursionError →
      chat_with_agent true provider exec limit message =
        ChatResult.httpError 500
          ("AI Agent Error: Recursion limit of " ++ toString limit ++
            " reached without hitting a stop condition.")) ∧
    (∀ final, graphInvoke true provider exec limit [Msg.human message] = RunOutcome.finished final →
      ∃ content, final.getLast? = some (Msg.ai content []) ∧
        chat_with_agent true provider exec limit message = ChatResult.ok content) := by
  refine ⟨by simp [chat_with_agent], fun e he => ?_, fun hr => ?_, fun final hf => ?_⟩
  · simp [chat_with_agent, he]
  · simp [chat_with_agent, hr]
  · obtain ⟨content, hlast⟩ :=
      runFrom_finished_last true provider exec limit Node.agent [Msg.human message] final hf
    exact ⟨content, hlast, by simp [chat_with_agent, graphInvoke] at hf ⊢; simp [hf, hlast]⟩

/-- C7 witness: the 503 branch and a finished run at concrete inputs. -/
theorem C7_chat_outcomes_witness :
    chat_with_agent false answerProvider execOk 25 "hi" =
      ChatResult.httpError 503 "LLM backend is unavailable. Please ensure Ollama is running." ∧
    ∃ content, ([Msg.human "hi", Msg.ai "done" []]).getLast? = some (Msg.ai content []) ∧
      chat_with_agent true answerProvider execOk 25 "hi" = ChatResult.ok content :=
  ⟨(C7_chat_outcomes answerProvider execOk 25 "hi").1,
   (C7_chat_outcomes answerProvider execOk 25 "hi").2.2.2 [Msg.human "hi", Msg.ai "done" []] rfl⟩

/-- C1: the claim's second half fails on the code. With a provider that
requests a tool on every decision, the run does not terminate with a synthetic
"exceeded maximum tool-call iterations" assistant turn: the graph engine's
recursion limit aborts it with a `GraphRecursionError` (no assistant turn at
all), which `/chat` surfaces as an HTTP 500 "AI Agent Error". -/
theorem C1_counterexample :
    graphInvoke true alwaysToolProvider execOk 4 [Msg.human "hi"] =
      RunOutcome.recursionError ∧
    chat_with_agent true alwaysToolProvider execOk 4 "hi" =
      ChatResult.httpError 500
        "AI Agent Error: Recursion limit of 4 reached without hitting a stop condition." :=
  ⟨rfl, rfl⟩

/-- C1 (amended): the loop always terminates within the recursion limit. A
provider that never returns an empty tool-call list drives every run, from any
node and state and for any limit, into `GraphRecursionError` — never an
unbounded loop, but also never a synthetic assistant turn. A provider whose
(i+1)-th decision along the run is tool-free, with all decisions up to it
answered, finishes normally whenever the limit covers the needed 2i+1
supersteps. -/
theorem C1_termination :
    (∀ (provider : Provider) (exec : Exec) (limit : Nat) (node : Node) (state : List Msg),
      (∀ msgs, ∃ c tcs, provider msgs = Except.ok (c, tcs) ∧ tcs ≠ []) →
      runFrom true provider exec limit node state = RunOutcome.recursionError) ∧
    (∀ (provider : Provider) (exec : Exec) (seed : List Msg) (i limit : Nat),
      (∀ j, j ≤ i → ∃ d, provider (traceState provider exec seed j) = Except.ok d) →
      (∃ c, provider (traceState provider exec seed i) = Except.ok (c, [])) →
      2 * i + 1 ≤ limit →
      ∃ final, runFrom true provider exec limit Node.agent seed = RunOutcome.finished final) := by
  constructor
  · intro provider exec limit
    induction limit with
    | zero => intro node state _; cases node <;> rfl
    | succ n ih =>
      intro node state h
      cases node with
      | action => rw [runFrom_action]; exact ih Node.agent _ h
      | agent =>
        obtain ⟨c, tcs, hok, hne⟩ := h state
        rw [runFrom_agent_ok provider exec n state c tcs hok]
        cases tcs with
        | nil => exact absurd rfl hne
        | cons hd tl =>
          rw [if_neg (by simp)]
          exact ih Node.action _ h
  · intro provider exec seed i
    induction i generalizing seed with
    | zero =>
      intro limit _ hempty hlim
      obtain ⟨c, hc⟩ := hempty
      obtain ⟨n, rfl⟩ : ∃ n, limit = n + 1 := ⟨limit - 1, by omega⟩
      refine ⟨seed ++ [Msg.ai c []], ?_⟩
      rw [runFrom_agent_ok provider exec n seed c [] hc]
      simp
    | succ i ih =>
      intro limit hok hempty hlim
      obtain ⟨⟨c, tcs⟩, hc'⟩ := hok 0 (Nat.zero_le _)
      have hc : provider seed = Except.ok (c, tcs) := hc'
      by_cases htcs : tcs = []
      · subst htcs
        obtain ⟨n, rfl⟩ : ∃ n, limit = n + 1 := ⟨limit - 1, by omega⟩
        refine ⟨seed ++ [Msg.ai c []], ?_⟩
        rw [runFrom_agent_ok provider exec n seed c [] hc]
        simp
      · obtain ⟨n, rfl⟩ : ∃ n, limit = n + 1 + 1 := ⟨limit - 2, by omega⟩
        have heq : runFrom true provider exec (n + 1 + 1) Node.agent seed =
            runFrom true provider exec n Node.agent (nextRound provider exec seed) := by
          rw [runFrom_agent_ok provider exec (n + 1) seed c tcs hc]
          cases tcs with
          | nil => exact absurd rfl htcs
          | cons hd tl =>
            rw [if_neg (by simp), runFrom_action]
            congr 1
            simp [nextRound, hc, applyDelta]
        rw [heq]
        refine ih (nextRound provider exec seed) n (fun j hj => ?_) ?_ (by omega)
        · rw [traceState_shift]
          exact hok (j + 1) (by omega)
        · rw [traceState_shift]
          exact hempty

/-- C1 witness: the never-empty provider exhausts the limit; a provider that
answers on its first decision finishes within it. -/
theorem C1_termination_witness :
    runFrom true alwaysToolProvider execOk 25 Node.agent [Msg.human "x"] =
      RunOutcome.recursionError ∧
    ∃ final, runFrom true answerProvider execOk 25 Node.agent [Msg.human "x"] =
      RunOutcome.finished final :=
  ⟨C1_termination.1 alwaysToolProvider execOk 25 Node.agent [Msg.human "x"]
      (fun _ => ⟨"looping", [tc1], rfl, by simp⟩),
   C1_termination.2 answerProvider execOk [Msg.human "x"] 0 25
      (fun _ _ => ⟨("done", []), rfl⟩) ⟨"done", rfl⟩ (by omega)⟩

/-- C10: an unmapped logical tool name is not rejected locally. When
`TOOL_NAME_MAP` has no entry for `tool_name`, `get(tool_name, tool_name)`
forwards the name unchanged; the MCP server's dispatch answers HTTP 400
"Unknown tool: <name>", which the proxy wraps as
`{success: false, error: "MCP server returned 400: ..."}` — also through the
full executor path when the LangChain-level call is named `mcp_calendar_tool`.
The executor-level "Unknown tool '<name>' requested." arises only for a
LangChain-level call named something else. -/
theorem C10_unmapped_name_forwarded (handlers : Handlers) (tool_name : String)
    (params kwargs args : Args) (id : String) (exec : Exec) (c : ToolCall)
    (h : TOOL_NAME_MAP.lookup tool_name = none)
    (hargs : args.lookup "tool_name" = some (Value.str tool_name))
    (hc : c.name ≠ "mcp_calendar_tool") :
    mcpToolId tool_name = tool_name ∧
    call_tool handlers tool_name params =
      ServerOutcome.httpError 400 ("Unknown tool: " ++ tool_name) ∧
    mcp_calendar_tool (serverNet handlers) tool_name kwargs =
      Value.dict [("success", Value.bool false),
                  ("error", Value.str ("MCP server returned 400: Unknown tool: " ++ tool_name))] ∧
    runTool (invokeMcpTool (serverNet handlers))
        { name := "mcp_calendar_tool", args := args, id := id } =
      Value.dict [("success", Value.bool false),
                  ("error", Value.str ("MCP server returned 400: Unknown tool: " ++ tool_name))] ∧
    runTool exec c =
      Value.dict [("success", Value.bool false),
                  ("error", Value.str ("Unknown tool '" ++ c.name ++ "' requested."))] := by
  have h1 : ¬ tool_name = "calendar_create_event" := by
    rintro rfl; exact absurd h (by decide)
  have h2 : ¬ tool_name = "calendar_send_reminder" := by
    rintro rfl; exact absurd h (by decide)
  have h3 : ¬ tool_name = "calendar_sync_google" := by
    rintro rfl; exact absurd h (by decide)
  have h4 : ¬ tool_name = "calendar_import_google" := by
    rintro rfl; exact absurd h (by decide)
  have hid : mcpToolId tool_name = tool_name := by simp [mcpToolId, h]
  have hcall : ∀ p : Args, call_tool handlers tool_name p =
      ServerOutcome.httpError 400 ("Unknown tool: " ++ tool_name) := by
    intro p; simp [call_tool, h1, h2, h3, h4]
  have hstr : ∀ s : String,
      "MCP server returned " ++ toString (400 : Nat) ++ ": " ++ ("Unknown tool: " ++ s) =
        "MCP server returned 400: Unknown tool: " ++ s := by
    intro s
    rw [← String.append_assoc]
    rfl
  have hmcp : ∀ kw : Args, mcp_calendar_tool (serverNet handlers) tool_name kw =
      Value.dict [("success", Value.bool false),
                  ("error", Value.str ("MCP server returned 400: Unknown tool: " ++ tool_name))] := by
    intro kw
    simp only [mcp_calendar_tool, serverNet, hid, hcall]
    rw [if_pos trivial, hstr tool_name]
  refine ⟨hid, hcall params, hmcp kwargs, ?_, by simp [runTool, hc]⟩
  simp only [runTool, if_pos rfl, invokeMcpTool, hargs]
  exact hmcp _

/-- C10 witness: the unmapped name "create_event" at concrete inputs. -/
theorem C10_unmapped_name_forwarded_witness :
    mcp_calendar_tool (serverNet fun _ _ => Value.dict []) "create_event" [] =
      Value.dict [("success", Value.bool false),
                  ("error", Value.str "MCP server returned 400: Unknown tool: create_event")] :=
  (C10_unmapped_name_forwarded (fun _ _ => Value.dict []) "create_event" [] []
     [("tool_name", Value.str "create_event")] "1" execOk
     { name := "w", args := [], id := "2" } rfl rfl (by decide)).2.2.1
